import Mathlib

/-!
Shallow embedding of `wut-temperature-exporter` (`src/main.go`, newer
revision): an SNMP→Prometheus exporter that resolves a `target` query key
to a configured device, walks a fixed OID subtree, parses the leaves and
emits one gauge sample per parsed leaf.

Machine floats are modelled as exact rationals (`ℚ`): the parser model
captures the accepted decimal syntax and the exact decimal value, not the
float32 rounding step of `strconv.ParseFloat(_, 32)`.
-/

namespace Wut

/-- A configured device record (`type Target` in main.go): `ip` is the
device address, `room` the logical name. -/
structure Target where
  ip : String
  room : String
deriving DecidableEq, Repr

/-- The process configuration (`type config`): the record list and the
shared SNMP community secret. -/
structure Config where
  targets : List Target
  community : String
deriving DecidableEq, Repr

/-- The per-request collector (`type Collector`, newer revision; the
`Logger` field carries no data relevant to the samples). -/
structure Collector where
  ip : String
  community : String
  room : String
deriving DecidableEq, Repr

/-- Substring search on character lists: does `sub` occur contiguously in
`s`? -/
def containsSub (s sub : List Char) : Bool :=
  match s with
  | [] => sub.isEmpty
  | _ :: t => sub.isPrefixOf s || containsSub t sub

/-- Model of Go `strings.Contains s sub`: `sub` occurs as a contiguous
substring of `s` (byte/char infix). -/
def goContains (s sub : String) : Bool :=
  containsSub s.data sub.data

/-- Model of Go `strings.ReplaceAll data "," "."`: the pattern is the
single character `,`, so replacing every occurrence is a character map. -/
def goReplaceCommaDot (s : String) : String :=
  ⟨s.data.map fun c => if c == ',' then '.' else c⟩

/-- Go `unicode.IsSpace` (Latin-1 range, which covers every byte the
device can send): space, tab, newline, vertical tab, form feed, carriage
return, NEL and NBSP. -/
def isSpaceGo (c : Char) : Bool :=
  c == ' ' || c == '\t' || c == '\n' || c == (Char.ofNat 11) || c == (Char.ofNat 12) ||
    c == '\r' || c == (Char.ofNat 0x85) || c == (Char.ofNat 0xA0)

/-- Model of Go `strings.TrimSpace`: drop the characters satisfying
`unicode.IsSpace` from both ends. -/
def goTrimSpace (s : String) : String :=
  ⟨((s.data.dropWhile isSpaceGo).reverse.dropWhile isSpaceGo).reverse⟩

/-- Model of Go `strings.ToLower`: lowercase every character (simple,
ASCII-faithful case mapping). -/
def goToLower (s : String) : String :=
  ⟨s.data.map Char.toLower⟩

/-- Model of Go `strings.EqualFold` restricted to simple case folding
(faithful for the ASCII room names the exporter handles). -/
def goEqualFold (s t : String) : Bool :=
  goToLower s == goToLower t

/-- Decimal value of a digit list, most significant first. -/
def digitsVal (cs : List Char) : Nat :=
  cs.foldl (fun a c => a * 10 + (c.toNat - 48)) 0

/-- `pow10 n = 10 ^ n` over `Nat`, kept first-order so that concrete
parses reduce in the kernel. -/
def pow10 : Nat → Nat
  | 0 => 1
  | n + 1 => pow10 n * 10

/-- Model of Go `strconv.ParseFloat(s, 32)` restricted to finite decimal
notation — optional sign, decimal mantissa with optional fraction part and
at least one digit, optional `e`/`E` exponent — returning the exact decimal
value as a rational. Hexadecimal mantissas, underscore separators,
infinities and NaN are outside the model; float32 rounding is not applied. -/
def goParseFloat (s : String) : Option ℚ :=
  let cs := s.data
  let signAndRest : Int × List Char :=
    match cs with
    | '+' :: r => (1, r)
    | '-' :: r => (-1, r)
    | r => (1, r)
  let sign := signAndRest.1
  let cs₁ := signAndRest.2
  let intPart := cs₁.takeWhile Char.isDigit
  let cs₂ := cs₁.dropWhile Char.isDigit
  let fracAndRest : List Char × List Char :=
    match cs₂ with
    | '.' :: r => (r.takeWhile Char.isDigit, r.dropWhile Char.isDigit)
    | r => ([], r)
  let fracPart := fracAndRest.1
  let cs₃ := fracAndRest.2
  if intPart.isEmpty && fracPart.isEmpty then none
  else
    let m : Int := sign * Int.ofNat (digitsVal (intPart ++ fracPart))
    let den : Nat := pow10 fracPart.length
    match cs₃ with
    | [] => some (mkRat m den)
    | e :: r =>
      if e == 'e' || e == 'E' then
        let esignAndRest : Bool × List Char :=
          match r with
          | '+' :: r₂ => (true, r₂)
          | '-' :: r₂ => (false, r₂)
          | r₂ => (true, r₂)
        let edigits := esignAndRest.2.takeWhile Char.isDigit
        let rest := esignAndRest.2.dropWhile Char.isDigit
        if edigits.isEmpty || !rest.isEmpty then none
        else if esignAndRest.1 then
          some (mkRat (m * Int.ofNat (pow10 (digitsVal edigits))) den)
        else
          some (mkRat m (den * pow10 (digitsVal edigits)))
      else none

/-- A walked SNMP leaf value (`p.Value` in the range loop): the wire value
is a Go `string`, a byte slice `[]uint8`, or some other SNMP type. -/
inductive PDUValue where
  | str (s : String)
  | bytes (bs : List UInt8)
  | other
deriving DecidableEq, Repr

/-- The type switch at the top of the range loop: a `string` is kept, a
byte slice is converted to a string (Go `string(bytes)`, modelled
byte-for-byte, faithful for the device's ASCII payloads), and any other
type leaves `data` at its initial value `""`. -/
def coerceValue : PDUValue → String
  | .str s => s
  | .bytes bs => ⟨bs.map fun b => Char.ofNat b.toNat⟩
  | .other => ""

/-- The per-leaf parsing logic of the range loop body: skip when the raw
text contains the sentinel `"--"`, otherwise replace commas by dots, trim
surrounding whitespace and parse as a float; a parse error skips the leaf. -/
def parseLeaf (v : PDUValue) : Option ℚ :=
  let data := coerceValue v
  if goContains data "--" then none
  else goParseFloat (goTrimSpace (goReplaceCommaDot data))

/-- One emitted `wut_temperature` sample: the `room` and `sensor` label
values and the gauge value. -/
structure Sample where
  room : String
  sensor : String
  value : ℚ
deriving DecidableEq, Repr

/-- The metric-emitting range loop `for x, p := range data` of
`Collector.Collect`: `x` is the current 0-based walk position; a leaf whose
parse is `none` is skipped by `continue` but still advances `x`; a parsed
leaf emits a sample labelled with the lowercased room and `strconv.Itoa
(x+1)`. -/
def collectLoop (room : String) : Nat → List PDUValue → List Sample
  | _, [] => []
  | x, p :: rest =>
    match parseLeaf p with
    | none => collectLoop room (x + 1) rest
    | some v => ⟨goToLower room, toString (x + 1), v⟩ :: collectLoop room (x + 1) rest

/-- The samples `Collector.Collect` sends for a successful walk result. -/
def collectSamples (room : String) (data : List PDUValue) : List Sample :=
  collectLoop room 0 data

/-- Outcome of the device interaction inside `Collector.Collect`:
`snmp.Connect` fails, `snmp.WalkAll` fails (after the retry budget), or the
walk succeeds with an ordered leaf sequence. -/
inductive WalkResult where
  | connectError
  | walkError
  | ok (data : List PDUValue)
deriving DecidableEq, Repr

/-- `Collector.Collect`: on a connect or walk error it returns without
sending any metric; on success it runs the range loop. -/
def collect (c : Collector) (w : WalkResult) : List Sample :=
  match w with
  | .connectError => []
  | .walkError => []
  | .ok data => collectSamples c.room data

/-- SNMP protocol version as configured on the `gosnmp.GoSNMP` struct. -/
inductive SnmpVersion where
  | version1
  | version2c
  | version3
deriving DecidableEq, Repr

/-- The fields `Collector.Collect` assigns on the `gosnmp.GoSNMP` struct
before connecting (newer revision, lines 210–219). -/
structure GoSNMPSettings where
  community : String
  version : SnmpVersion
  target : String
  port : Nat
  transport : String
  timeoutSeconds : Nat
  maxRepetitions : Nat
  retries : Nat
deriving DecidableEq, Repr

/-- The concrete configuration `Collector.Collect` builds for its SNMP
session. -/
def snmpSettings (c : Collector) : GoSNMPSettings :=
  { community := c.community
    version := .version1
    target := c.ip
    port := 161
    transport := "udp"
    timeoutSeconds := 30
    maxRepetitions := 50
    retries := 3 }

/-- The OID subtree root passed to `snmp.WalkAll`. -/
def walkOID : String := "1.3.6.1.4.1.5040.1.2.6.1.3.1.1"

/-- Severity levels of the logger calls in `Collector.Collect`. -/
inductive LogLevel where
  | warn
  | error
deriving DecidableEq, Repr

/-- The `snmp.OnRetry` callback: it logs a warning naming the device and
returns nothing — a retry is never turned into an error value. -/
def onRetryLog (c : Collector) : LogLevel × String :=
  (.warn, "SNMP retry " ++ c.ip)

/-- Whether a configured record matches a request key: case-insensitive
equality on the room name, or exact equality on the address
(`strings.EqualFold(x.Room, target) || x.IP == target`). -/
def matchesKey (x : Target) (key : String) : Bool :=
  goEqualFold x.room key || x.ip == key

/-- The resolution loop of the HTTP handler: `room` and `ip` start empty
and take the fields of the first matching record, after which the loop
breaks. -/
def resolveLoop (targets : List Target) (key : String) : String × String :=
  match targets with
  | [] => ("", "")
  | x :: rest =>
    if matchesKey x key then (x.room, x.ip)
    else resolveLoop rest key

/-- The first configured record matching a key, if any — the resolver seen
as a partial lookup (`resolveFind ts key = ts.find? (matchesKey · key)`). -/
def resolveFind (targets : List Target) (key : String) : Option Target :=
  targets.find? fun x => matchesKey x key

/-- An inbound scrape request, reduced to the list of values carried by
its `target` query parameter, in order. -/
structure Request where
  targetParams : List String
deriving DecidableEq, Repr

/-- Go `query.Get("target")`: the first value of the parameter, or `""`
when the parameter is absent. -/
def queryGet (vals : List String) : String :=
  vals.headD ""

/-- The observable outcome of the HTTP handler: 400, 404, or 200 with the
gathered samples as the exposition body. -/
inductive HttpResponse where
  | badRequest
  | notFound
  | ok (samples : List Sample)
deriving DecidableEq, Repr

/-- A Prometheus registry, reduced to the collectors registered in it. -/
structure Registry where
  collectors : List Collector
deriving DecidableEq, Repr

/-- `prometheus.NewRegistry()`: a fresh, empty registry. -/
def newRegistry : Registry := ⟨[]⟩

/-- `registry.MustRegister(c)`: add a collector to the registry. -/
def mustRegister (reg : Registry) (c : Collector) : Registry :=
  ⟨reg.collectors ++ [c]⟩

/-- Concatenate the samples of a list of collectors. -/
def gatherList (cs : List Collector) (w : WalkResult) : List Sample :=
  match cs with
  | [] => []
  | c :: rest => collect c w ++ gatherList rest w

/-- Serving a registry: concatenate the samples of every registered
collector, the walk outcome `w` standing for the device interaction. -/
def gather (reg : Registry) (w : WalkResult) : List Sample :=
  gatherList reg.collectors w

/-- The HTTP handler registered in `main` (newer revision, lines
294–325): validate the `target` parameter, create a fresh registry,
resolve the key over the configured records, 404 when the resolved address
is empty, otherwise register a request-scoped collector and serve the
registry. -/
def handleRequest (cfg : Config) (r : Request) (w : WalkResult) : HttpResponse :=
  let target := queryGet r.targetParams
  if r.targetParams.length != 1 || target == "" then .badRequest
  else
    let reg := newRegistry
    let roomIp := resolveLoop cfg.targets target
    if roomIp.2 == "" then .notFound
    else
      let c : Collector := ⟨roomIp.2, cfg.community, roomIp.1⟩
      .ok (gather (mustRegister reg c) w)

/-! ### Helper lemmas -/

theorem parseLeaf_str215 : parseLeaf (.str "21.5") = some (mkRat 43 2) := by decide

theorem parseLeaf_sentinel : parseLeaf (.str "--") = none := by decide

theorem parseLeaf_str198 : parseLeaf (.str "19,8") = some (mkRat 99 5) := by decide

theorem mem_collectLoop {room : String} {s : Sample} :
    ∀ (x : Nat) (data : List PDUValue),
      s ∈ collectLoop room x data ↔
        ∃ i p, data[i]? = some p ∧ parseLeaf p = some s.value ∧
          s.room = goToLower room ∧ s.sensor = toString (x + i + 1) := by
  intro x data
  induction data generalizing x with
  | nil => simp [collectLoop]
  | cons p rest ih =>
    cases h : parseLeaf p with
    | none =>
      simp only [collectLoop, h]
      rw [ih (x + 1)]
      constructor
      · rintro ⟨i, q, hq, hv, hr, hs⟩
        refine ⟨i + 1, q, by simpa using hq, hv, hr, ?_⟩
        rw [hs]; congr 1; omega
      · rintro ⟨i, q, hq, hv, hr, hs⟩
        cases i with
        | zero =>
          rw [List.getElem?_cons_zero] at hq
          cases hq
          rw [h] at hv
          exact absurd hv (by simp)
        | succ j =>
          refine ⟨j, q, by simpa using hq, hv, hr, ?_⟩
          rw [hs]; congr 1; omega
    | some v =>
      simp only [collectLoop, h, List.mem_cons]
      rw [ih (x + 1)]
      constructor
      · rintro (rfl | ⟨i, q, hq, hv, hr, hs⟩)
        · exact ⟨0, p, by simp, by simpa using h, rfl, rfl⟩
        · refine ⟨i + 1, q, by simpa using hq, hv, hr, ?_⟩
          rw [hs]; congr 1; omega
      · rintro ⟨i, q, hq, hv, hr, hs⟩
        cases i with
        | zero =>
          rw [List.getElem?_cons_zero] at hq
          cases hq
          rw [h] at hv
          cases hv
          left
          cases s
          simp_all
        | succ j =>
          refine Or.inr ⟨j, q, by simpa using hq, hv, hr, ?_⟩
          rw [hs]; congr 1; omega

theorem collectLoop_append (room : String) :
    ∀ (x : Nat) (l₁ l₂ : List PDUValue),
      collectLoop room x (l₁ ++ l₂)
        = collectLoop room x l₁ ++ collectLoop room (x + l₁.length) l₂ := by
  intro x l₁ l₂
  induction l₁ generalizing x with
  | nil => simp [collectLoop]
  | cons p rest ih =>
    have hlen : x + 1 + rest.length = x + (rest.length + 1) := by omega
    have happ : rest.append l₂ = rest ++ l₂ := rfl
    cases h : parseLeaf p with
    | none =>
      simp only [List.cons_append, collectLoop, h, List.length_cons]
      rw [happ, ih (x + 1), hlen]
    | some v =>
      simp only [List.cons_append, collectLoop, h, List.length_cons]
      rw [happ, ih (x + 1), hlen]

/-! ### Claim theorems: parsing and sample emission -/

/-- C1: the collection operation emits one sample per successfully parsed
leaf, labelled with the lowercased room and the 1-based decimal of the
leaf's original walk position; a skipped leaf still consumes its numeric
slot, so the walk result `["21.5", "--", "19,8"]` yields exactly the two
samples `{sensor="1", value=21.5}` and `{sensor="3", value=19.8}` and
sensor index `"2"` never appears. -/
theorem collect_original_position_indexing (room : String) (data : List PDUValue) :
    (∀ i p v, data[i]? = some p → parseLeaf p = some v →
        (⟨goToLower room, toString (i + 1), v⟩ : Sample) ∈ collectSamples room data)
    ∧ (∀ s ∈ collectSamples room data, ∃ i p, data[i]? = some p ∧
        parseLeaf p = some s.value ∧ s.room = goToLower room ∧ s.sensor = toString (i + 1))
    ∧ collectSamples room [.str "21.5", .str "--", .str "19,8"]
        = [⟨goToLower room, "1", mkRat 43 2⟩, ⟨goToLower room, "3", mkRat 99 5⟩]
    ∧ (∀ s ∈ collectSamples room [.str "21.5", .str "--", .str "19,8"], s.sensor ≠ "2") := by
  have hex : collectSamples room [.str "21.5", .str "--", .str "19,8"]
      = [⟨goToLower room, "1", mkRat 43 2⟩, ⟨goToLower room, "3", mkRat 99 5⟩] := by
    simp [collectSamples, collectLoop, parseLeaf_str215, parseLeaf_sentinel, parseLeaf_str198]
    exact ⟨by decide, by decide⟩
  refine ⟨?_, ?_, hex, ?_⟩
  · intro i p v hp hv
    rw [collectSamples, mem_collectLoop 0 data]
    have h0 : 0 + i + 1 = i + 1 := by omega
    refine ⟨i, p, hp, hv, rfl, ?_⟩
    rw [h0]
  · intro s hs
    rw [collectSamples, mem_collectLoop 0 data] at hs
    obtain ⟨i, p, hp, hv, hr, hsen⟩ := hs
    refine ⟨i, p, hp, hv, hr, ?_⟩
    rw [hsen]
    have h0 : 0 + i + 1 = i + 1 := by omega
    rw [h0]
  · intro s hs
    rw [hex] at hs
    simp only [List.mem_cons, List.not_mem_nil, or_false] at hs
    rcases hs with rfl | rfl
    · exact fun hcontra => absurd hcontra (by decide : ¬ ("1" : String) = "2")
    · exact fun hcontra => absurd hcontra (by decide : ¬ ("3" : String) = "2")

/-- C1 witness: at room `"Lab"` and the three-leaf walk result, the first
conjunct puts the sample for walk position 0 in the output. -/
theorem collect_original_position_indexing_witness :
    (⟨goToLower "Lab", toString (0 + 1), mkRat 43 2⟩ : Sample)
      ∈ collectSamples "Lab" [.str "21.5", .str "--", .str "19,8"] :=
  (collect_original_position_indexing "Lab" [.str "21.5", .str "--", .str "19,8"]).1
    0 (.str "21.5") (mkRat 43 2) (by decide) (by decide)

/-- C2: the per-leaf parser returns `none` exactly when the coerced text
contains the sentinel `"--"`; otherwise it is comma-replacement, trimming
and float parsing; bytes are first coerced to text; `parse("19,8") =
some 19.8`, `parse("bad") = none`, `parse("--") = none`; and a leaf that
parses to `none` contributes no sample while leaving every other leaf's
sample (and slot number) unchanged. -/
theorem parse_semantics :
    (∀ v : PDUValue, goContains (coerceValue v) "--" = true → parseLeaf v = none)
    ∧ (∀ v : PDUValue, goContains (coerceValue v) "--" = false →
        parseLeaf v = goParseFloat (goTrimSpace (goReplaceCommaDot (coerceValue v))))
    ∧ (∀ bs : List UInt8, parseLeaf (.bytes bs) = parseLeaf (.str (coerceValue (.bytes bs))))
    ∧ parseLeaf (.str "19,8") = some (mkRat 99 5)
    ∧ parseLeaf (.str "bad") = none
    ∧ parseLeaf (.str "--") = none
    ∧ (∀ room x (pre : List PDUValue) p post, parseLeaf p = none →
        collectLoop room x (pre ++ p :: post)
          = collectLoop room x pre ++ collectLoop room (x + pre.length + 1) post) := by
  refine ⟨?_, ?_, ?_, parseLeaf_str198, by decide, parseLeaf_sentinel, ?_⟩
  · intro v h
    simp [parseLeaf, h]
  · intro v h
    simp [parseLeaf, h]
  · intro bs
    rfl
  · intro room x pre p post hp
    rw [collectLoop_append room x pre (p :: post)]
    simp only [collectLoop, hp]

/-- C2 witness: the sentinel branch at the concrete leaf `"--"`. -/
theorem parse_semantics_witness :
    parseLeaf (.str "--") = none :=
  parse_semantics.1 (.str "--") (by decide)

/-- C9: a leaf whose wire value is neither a string nor a byte slice is
coerced to the empty string by the type switch, the empty string fails
float parsing, so the leaf yields no sample while still consuming its
index slot, and the remaining leaves are processed unchanged at the
shifted positions. -/
theorem other_wire_type_skipped (room : String) (x : Nat) (rest : List PDUValue) :
    coerceValue .other = ""
    ∧ goParseFloat "" = none
    ∧ parseLeaf .other = none
    ∧ collectLoop room x (.other :: rest) = collectLoop room (x + 1) rest := by
  refine ⟨rfl, by decide, by decide, ?_⟩
  have h : parseLeaf .other = none := by decide
  simp [collectLoop, h]

/-! ### Helper lemmas: resolution and the HTTP handler -/

theorem matchesKey_self_room (t : Target) : matchesKey t t.room = true := by
  simp [matchesKey, goEqualFold]

theorem matchesKey_self_ip (t : Target) : matchesKey t t.ip = true := by
  simp [matchesKey]

theorem resolveLoop_eq_find (ts : List Target) (key : String) :
    resolveLoop ts key = match resolveFind ts key with
      | some t => (t.room, t.ip)
      | none => ("", "") := by
  induction ts with
  | nil => rfl
  | cons x rest ih =>
    cases h : matchesKey x key with
    | true => simp [resolveLoop, resolveFind, h]
    | false =>
      have hfind : resolveFind (x :: rest) key = resolveFind rest key := by
        simp only [resolveFind]
        exact List.find?_cons_of_neg _ (by simp [h])
      rw [hfind]
      simp only [resolveLoop, h, Bool.false_eq_true, if_false]
      exact ih

theorem resolveLoop_of_find_some {ts : List Target} {key : String} {t : Target}
    (h : resolveFind ts key = some t) : resolveLoop ts key = (t.room, t.ip) := by
  rw [resolveLoop_eq_find, h]

theorem resolveLoop_of_find_none {ts : List Target} {key : String}
    (h : resolveFind ts key = none) : resolveLoop ts key = ("", "") := by
  rw [resolveLoop_eq_find, h]

theorem find?_skip {α : Type} (p : α → Bool) :
    ∀ (pre l : List α), (∀ u ∈ pre, p u = false) →
      List.find? p (pre ++ l) = List.find? p l := by
  intro pre l h
  induction pre with
  | nil => rfl
  | cons x rest ih =>
    have hx : p x = false := h x (List.mem_cons_self x rest)
    rw [List.cons_append, List.find?_cons_of_neg _ (by simp [hx])]
    exact ih fun u hu => h u (List.mem_cons_of_mem x hu)

theorem handleRequest_invalid {cfg : Config} {r : Request} {w : WalkResult}
    (h : ¬(r.targetParams.length = 1 ∧ queryGet r.targetParams ≠ "")) :
    handleRequest cfg r w = HttpResponse.badRequest := by
  have hcond : (r.targetParams.length != 1 || queryGet r.targetParams == "") = true := by
    rcases not_and_or.mp h with h1 | h2
    · simp [h1]
    · simp [not_not.mp h2]
  simp [handleRequest, hcond]

theorem handleRequest_valid {cfg : Config} {r : Request} {w : WalkResult}
    (h1 : r.targetParams.length = 1) (h2 : queryGet r.targetParams ≠ "") :
    handleRequest cfg r w =
      if (resolveLoop cfg.targets (queryGet r.targetParams)).2 == "" then HttpResponse.notFound
      else HttpResponse.ok (gather (mustRegister newRegistry
        ⟨(resolveLoop cfg.targets (queryGet r.targetParams)).2, cfg.community,
          (resolveLoop cfg.targets (queryGet r.targetParams)).1⟩) w) := by
  have hcond : (r.targetParams.length != 1 || queryGet r.targetParams == "") = false := by
    simp [h1, h2]
  simp only [handleRequest, hcond, Bool.false_eq_true, if_false]

theorem gather_single (c : Collector) (w : WalkResult) :
    gather (mustRegister newRegistry c) w = collect c w := by
  simp [gather, gatherList, mustRegister, newRegistry]

/-! ### Claim theorems: resolution and the HTTP handler -/

/-- C3 counterexample: with two configured records sharing the room name
`"Lab"`, resolution of the second record's room name returns the first
record, so `resolve(T.room) = T` fails for the second configured record
even though it is a configured record. -/
theorem resolve_duplicate_room_counterexample :
    resolveFind [Target.mk "10.0.0.1" "Lab", Target.mk "10.0.0.2" "Lab"]
        (Target.mk "10.0.0.2" "Lab").room = some (Target.mk "10.0.0.1" "Lab")
    ∧ Target.mk "10.0.0.1" "Lab" ≠ Target.mk "10.0.0.2" "Lab" :=
  ⟨by decide, by decide⟩

/-- C3 (amended): resolution matches by case-insensitive room-name
equality or exact address equality, the first matching record in
configured order wins, a key matching no record yields the NotFound value
rather than an exception, and `resolve(T.room)` and `resolve(T.address)`
return the configured record `T` provided no earlier configured record
also matches that key. -/
theorem resolver_first_match_policy (ts pre post : List Target) (t : Target) (key : String) :
    (resolveLoop ts key = match resolveFind ts key with
      | some u => (u.room, u.ip)
      | none => ("", ""))
    ∧ (resolveFind ts key = none → resolveLoop ts key = ("", ""))
    ∧ ((∀ u ∈ pre, matchesKey u t.room = false) →
        resolveFind (pre ++ t :: post) t.room = some t)
    ∧ ((∀ u ∈ pre, matchesKey u t.ip = false) →
        resolveFind (pre ++ t :: post) t.ip = some t) := by
  refine ⟨resolveLoop_eq_find ts key, resolveLoop_of_find_none, ?_, ?_⟩
  · intro h
    rw [resolveFind, find?_skip _ pre (t :: post) h]
    exact List.find?_cons_of_pos _ (by simp [matchesKey_self_room])
  · intro h
    rw [resolveFind, find?_skip _ pre (t :: post) h]
    exact List.find?_cons_of_pos _ (by simp [matchesKey_self_ip])

/-- C3 witness: a configured record with no earlier record resolves to
itself by its room name. -/
theorem resolver_first_match_policy_witness :
    resolveFind ([] ++ Target.mk "10.0.0.1" "Lab" :: []) (Target.mk "10.0.0.1" "Lab").room
      = some (Target.mk "10.0.0.1" "Lab") :=
  (resolver_first_match_policy [] [] [] (Target.mk "10.0.0.1" "Lab") "anything").2.2.1
    (by simp)

/-- C4: the SNMP session is configured with community authentication over
connectionless UDP transport, protocol version 1, a 30-second timeout per
attempt, 3 retries whose observer callback logs a warning (never an error
value), a batch size (`MaxRepetitions`) of 50, and the walk targets the
fixed vendor OID subtree. -/
theorem snmp_session_parameters (c : Collector) :
    (snmpSettings c).version = SnmpVersion.version1
    ∧ (snmpSettings c).community = c.community
    ∧ (snmpSettings c).transport = "udp"
    ∧ (snmpSettings c).port = 161
    ∧ (snmpSettings c).timeoutSeconds = 30
    ∧ (snmpSettings c).retries = 3
    ∧ (snmpSettings c).maxRepetitions = 50
    ∧ walkOID = "1.3.6.1.4.1.5040.1.2.6.1.3.1.1"
    ∧ (onRetryLog c).1 = LogLevel.warn :=
  ⟨rfl, rfl, rfl, rfl, rfl, rfl, rfl, rfl, rfl⟩

/-- C5: when the walker fails (connect failure, or walk failure after the
retry budget), the collection operation yields zero samples for every
collector, and a request that resolved to a non-empty address is still
answered with success and an empty sample list. -/
theorem walk_failure_yields_empty_success (cfg : Config) (r : Request) (w : WalkResult)
    (hlen : r.targetParams.length = 1) (hne : queryGet r.targetParams ≠ "")
    (hip : (resolveLoop cfg.targets (queryGet r.targetParams)).2 ≠ "")
    (hfail : w = WalkResult.connectError ∨ w = WalkResult.walkError) :
    (∀ c : Collector, collect c w = []) ∧ handleRequest cfg r w = HttpResponse.ok [] := by
  have hc : ∀ c : Collector, collect c w = [] := by
    intro c
    rcases hfail with rfl | rfl <;> rfl
  refine ⟨hc, ?_⟩
  rw [handleRequest_valid hlen hne]
  simp [hip, gather_single, hc]

/-- C5 witness: a configured target, a well-formed request for it, and a
walk error produce a success response with an empty body. -/
theorem walk_failure_yields_empty_success_witness :
    (∀ c : Collector, collect c WalkResult.walkError = [])
    ∧ handleRequest ⟨[Target.mk "10.0.0.1" "Lab"], "public"⟩ ⟨["Lab"]⟩ WalkResult.walkError
        = HttpResponse.ok [] :=
  walk_failure_yields_empty_success ⟨[Target.mk "10.0.0.1" "Lab"], "public"⟩ ⟨["Lab"]⟩
    WalkResult.walkError (by decide) (by decide) (by decide) (Or.inr rfl)

/-- C6: the handler answers 400 exactly when the request does not carry
exactly one non-empty `target` query parameter, and in that case the
response is 400 whatever the configuration and the device behaviour — no
resolution and no walking influence it. -/
theorem target_param_validation (cfg : Config) (r : Request) (w : WalkResult) :
    (handleRequest cfg r w = HttpResponse.badRequest ↔
      ¬(r.targetParams.length = 1 ∧ queryGet r.targetParams ≠ ""))
    ∧ (¬(r.targetParams.length = 1 ∧ queryGet r.targetParams ≠ "") →
        ∀ (cfg₂ : Config) (w₂ : WalkResult),
          handleRequest cfg₂ r w₂ = HttpResponse.badRequest) := by
  constructor
  · constructor
    · intro h
      by_contra hval
      rw [handleRequest_valid hval.1 hval.2] at h
      by_cases hip : (resolveLoop cfg.targets (queryGet r.targetParams)).2 = ""
      · simp [hip] at h
      · simp [hip] at h
    · intro h
      exact handleRequest_invalid h
  · intro h cfg₂ w₂
    exact handleRequest_invalid h

/-- C6 witness: zero, duplicate and single-empty `target` parameters all
produce 400. -/
theorem target_param_validation_witness :
    handleRequest ⟨[], "c"⟩ ⟨[]⟩ WalkResult.walkError = HttpResponse.badRequest
    ∧ handleRequest ⟨[], "c"⟩ ⟨["a", "a"]⟩ WalkResult.walkError = HttpResponse.badRequest
    ∧ handleRequest ⟨[], "c"⟩ ⟨[""]⟩ WalkResult.walkError = HttpResponse.badRequest :=
  ⟨(target_param_validation ⟨[], "c"⟩ ⟨[]⟩ WalkResult.walkError).1.mpr (by decide),
   (target_param_validation ⟨[], "c"⟩ ⟨["a", "a"]⟩ WalkResult.walkError).1.mpr (by decide),
   (target_param_validation ⟨[], "c"⟩ ⟨[""]⟩ WalkResult.walkError).1.mpr (by decide)⟩

/-- C7: a well-formed request whose key resolves to no configured record
is answered 404, and the response is the same for every walk outcome — the
walker plays no part in it. -/
theorem unresolved_key_not_found (cfg : Config) (r : Request) (w : WalkResult)
    (hlen : r.targetParams.length = 1) (hne : queryGet r.targetParams ≠ "")
    (hnone : resolveFind cfg.targets (queryGet r.targetParams) = none) :
    handleRequest cfg r w = HttpResponse.notFound
    ∧ ∀ w₂ : WalkResult, handleRequest cfg r w₂ = handleRequest cfg r w := by
  have hmain : ∀ w₂ : WalkResult, handleRequest cfg r w₂ = HttpResponse.notFound := by
    intro w₂
    rw [handleRequest_valid hlen hne, resolveLoop_of_find_none hnone]
    simp
  exact ⟨hmain w, fun w₂ => by rw [hmain w₂, hmain w]⟩

/-- C7 witness: the key `"Office"` matches no record of a one-record
configuration and is answered 404. -/
theorem unresolved_key_not_found_witness :
    handleRequest ⟨[Target.mk "10.0.0.1" "Lab"], "c"⟩ ⟨["Office"]⟩ WalkResult.connectError
      = HttpResponse.notFound :=
  (unresolved_key_not_found ⟨[Target.mk "10.0.0.1" "Lab"], "c"⟩ ⟨["Office"]⟩
    WalkResult.connectError (by decide) (by decide) (by decide)).1

/-- C8: a request that resolves to a record with a non-empty address is
served from a freshly created registry holding exactly one collector,
built from that request's resolved target and the shared community
string; the served samples are those of that collector alone, every
emitted sample carries the request's own (lowercased) room label, and the
response is a function only of the request's key, the configuration and
the walk outcome. -/
theorem request_scoped_emission (cfg : Config) (r : Request) (w : WalkResult) (t : Target)
    (hlen : r.targetParams.length = 1) (hne : queryGet r.targetParams ≠ "")
    (hres : resolveFind cfg.targets (queryGet r.targetParams) = some t)
    (hip : t.ip ≠ "") :
    handleRequest cfg r w
        = HttpResponse.ok (gather (mustRegister newRegistry ⟨t.ip, cfg.community, t.room⟩) w)
    ∧ gather (mustRegister newRegistry ⟨t.ip, cfg.community, t.room⟩) w
        = collect ⟨t.ip, cfg.community, t.room⟩ w
    ∧ (∀ s ∈ collect ⟨t.ip, cfg.community, t.room⟩ w, s.room = goToLower t.room)
    ∧ (∀ r₂ : Request, r₂.targetParams.length = 1 →
        queryGet r₂.targetParams = queryGet r.targetParams →
        handleRequest cfg r₂ w = handleRequest cfg r w) := by
  have hget : queryGet r.targetParams ≠ "" := hne
  refine ⟨?_, gather_single _ w, ?_, ?_⟩
  · rw [handleRequest_valid hlen hne, resolveLoop_of_find_some hres]
    simp [hip]
  · intro s hs
    cases w with
    | connectError => cases hs
    | walkError => cases hs
    | ok data =>
      simp only [collect, collectSamples] at hs
      rw [mem_collectLoop 0 data] at hs
      obtain ⟨i, p, hp, hv, hr, hsen⟩ := hs
      exact hr
  · intro r₂ hlen₂ hkey
    rw [handleRequest_valid hlen₂ (hkey ▸ hne), handleRequest_valid hlen hne, hkey]

/-- C8 witness: a one-record configuration served for its own room key. -/
theorem request_scoped_emission_witness :
    handleRequest ⟨[Target.mk "10.0.0.1" "Lab"], "public"⟩ ⟨["lab"]⟩
        (WalkResult.ok [PDUValue.str "21.5"])
      = HttpResponse.ok (gather (mustRegister newRegistry
          ⟨"10.0.0.1", "public", "Lab"⟩) (WalkResult.ok [PDUValue.str "21.5"])) :=
  (request_scoped_emission ⟨[Target.mk "10.0.0.1" "Lab"], "public"⟩ ⟨["lab"]⟩
    (WalkResult.ok [PDUValue.str "21.5"]) (Target.mk "10.0.0.1" "Lab")
    (by decide) (by decide) (by decide) (by decide)).1

/-- C10: when the resolver's match policy selects a configured record
whose address string is empty, the handler answers 404 — the empty
resolved address is indistinguishable from NotFound — and the walker's
behaviour plays no part. -/
theorem empty_address_record_not_found (cfg : Config) (r : Request) (w : WalkResult)
    (t : Target)
    (hlen : r.targetParams.length = 1) (hne : queryGet r.targetParams ≠ "")
    (hres : resolveFind cfg.targets (queryGet r.targetParams) = some t)
    (hip : t.ip = "") :
    handleRequest cfg r w = HttpResponse.notFound := by
  rw [handleRequest_valid hlen hne, resolveLoop_of_find_some hres]
  simp [hip]

/-- C10 witness: a record with an empty address, matched case-insensitively
by its room name, is answered 404. -/
theorem empty_address_record_not_found_witness :
    handleRequest ⟨[Target.mk "" "Lab"], "c"⟩ ⟨["lab"]⟩
        (WalkResult.ok [PDUValue.str "21.5"]) = HttpResponse.notFound :=
  empty_address_record_not_found ⟨[Target.mk "" "Lab"], "c"⟩ ⟨["lab"]⟩
    (WalkResult.ok [PDUValue.str "21.5"]) (Target.mk "" "Lab")
    (by decide) (by decide) (by decide) (by decide)

end Wut
